import Mathlib

/-!
Verification model of the mood.ippc runtime (connection state machine,
server request dispatch, client round trip, overwatch bridge).

The definitions are a shallow embedding of the Python sources:
  * `mood/ippc/connection.py` — the `Connection` class: read/write task
    queues, reader/writer watchers, idempotent close;
  * `mood/ippc/rpc.py` — `Overwatch`, `BaseLoop.stop`,
    `ServerLoop.__on_request__`, `Client.__on_result__` and
    `Client.__on_request__`.

Callbacks are identified by natural numbers; whether a given callback
raises when invoked is supplied as a parameter `cbR : Nat → Bool`
(Python callbacks either return or raise; the model does not need the
raised value, only the control flow of `Connection.__run__`).  Socket
behaviour (an external collaborator, `mood/ippc/sockets.py` is out of
scope of the spec) is supplied per event as `ReadIo` / `WriteIo`.
-/

namespace Ippc

/-- A pending read task `(size, cb, args)` from `Connection.read`.
The `args` tuple is carried by the callback id in this model. -/
structure ReadTask where
  need : Nat
  cb : Nat
deriving DecidableEq, Repr

/-- A pending write task `(buf, cb, args)` from `Connection.write`. -/
structure WriteTask where
  buf : List Nat
  cb : Option Nat
deriving DecidableEq, Repr

/-- The mutable state of a `Connection`:
`_rbuf_`, `_rtasks_`, `_wtasks_`, the active flags of `_reader_` and
`_writer_`, `_socket_.closed`, `_closing_`, and `_on_close_`. -/
structure ConnState where
  rbuf : List Nat
  rtasks : List ReadTask
  wtasks : List WriteTask
  readerActive : Bool
  writerActive : Bool
  socketClosed : Bool
  closing : Bool
  onClose : Option Nat
deriving DecidableEq, Repr

/-- Observable events emitted while an operation runs: a read callback
invoked with the bytes split off the buffer, a write completion
callback, the `on_close` hook, and log records. -/
inductive Event
  | ranCb (id : Nat) (data : List Nat)
  | ranWriteCb (id : Nat)
  | ranOnClose (id : Nat)
  | loggedError
  | loggedDebug
deriving DecidableEq, Repr

/-- Result of running one operation: the next state, the events emitted
(in order), and whether a `ConnectionError` propagated to the caller. -/
structure OpRes where
  state : ConnState
  events : List Event
  raised : Bool
deriving DecidableEq, Repr

/-- The state produced by `Connection.__stop__` + `__cleanup__`:
watchers stopped, queues and buffer cleared, socket closed, cycle
references (including `_on_close_`) dropped, `_closing_` reset by the
`finally` block of `close`. -/
def tornState : ConnState :=
  { rbuf := [], rtasks := [], wtasks := [], readerActive := false,
    writerActive := false, socketClosed := true, closing := false,
    onClose := none }

/-- `Connection.close(notify)`.  Guarded by `not self.closed and not
self._closing_`; tears down, then runs the `on_close` hook through
`__run__` when `notify` is true.  If the hook raises, `__on_error__`
logs and calls `close()` again, which is a no-op because the socket is
already closed at that point. -/
def close (cbR : Nat → Bool) (notify : Bool) (s : ConnState) : OpRes :=
  if s.socketClosed = false ∧ s.closing = false then
    match s.onClose with
    | some cb =>
      if notify then
        if cbR cb then
          ⟨tornState, [Event.ranOnClose cb, Event.loggedError], false⟩
        else
          ⟨tornState, [Event.ranOnClose cb], false⟩
      else ⟨tornState, [], false⟩
    | none => ⟨tornState, [], false⟩
  else ⟨s, [], false⟩

/-- `Connection.__run__(cb, *args)`: invoke the callback; if it raises,
`__on_error__` logs at error level and closes the connection. -/
def runCb (cbR : Nat → Bool) (ev : Event) (cbId : Nat) (s : ConnState) : OpRes :=
  if cbR cbId then
    let r := close cbR true s
    ⟨r.state, ev :: Event.loggedError :: r.events, false⟩
  else ⟨s, [ev], false⟩

/-- `Connection.__consume__(size, cb, args)`: if the read buffer holds
at least `size` bytes, split them off and run the callback, returning
`some`; otherwise return `none` (Python: `False`). -/
def consume (cbR : Nat → Bool) (need : Nat) (cbId : Nat) (s : ConnState) :
    Option OpRes :=
  if need ≤ s.rbuf.length then
    some (runCb cbR (Event.ranCb cbId (s.rbuf.take need))
      cbId { s with rbuf := s.rbuf.drop need })
  else none

/-- `Connection.read(size, cb, *args)`.  Mirrors
`if size and (self._rtasks_ or not self.__consume__(size, cb, args)):`
followed by the closed check and the queue append. -/
def readOp (cbR : Nat → Bool) (need : Nat) (cbId : Nat) (s : ConnState) : OpRes :=
  if need = 0 then ⟨s, [], false⟩
  else if s.rtasks = [] then
    match consume cbR need cbId s with
    | some r => r
    | none =>
      if s.socketClosed then ⟨s, [], true⟩
      else ⟨{ s with rtasks := s.rtasks ++ [⟨need, cbId⟩] }, [], false⟩
  else
    if s.socketClosed then ⟨s, [], true⟩
    else ⟨{ s with rtasks := s.rtasks ++ [⟨need, cbId⟩] }, [], false⟩

/-- `Connection.write(buf, cb=None, args=())`: empty buffer is a no-op;
closed connection raises; otherwise append the task and start the
writer watcher if it is idle. -/
def writeOp (buf : List Nat) (cbId : Option Nat) (s : ConnState) : OpRes :=
  if buf = [] then ⟨s, [], false⟩
  else if s.socketClosed then ⟨s, [], true⟩
  else
    ⟨{ s with wtasks := s.wtasks ++ [⟨buf, cbId⟩], writerActive := true },
      [], false⟩

/-- What `self._socket_.read(self._rbuf_)` did on a readiness event:
would-block, some other OS error, or bytes appended with the
peer-closed flag it returned. -/
inductive ReadIo
  | wouldBlock
  | ioError
  | data (bs : List Nat) (peerClosed : Bool)
deriving DecidableEq, Repr

/-- What `self._socket_.write(buf)` did: would-block, some other OS
error, or success after consuming `k` bytes off the front of the task
buffer (the socket consumes a prefix in place). -/
inductive WriteIo
  | wouldBlock
  | ioError
  | wrote (k : Nat)
deriving DecidableEq, Repr

/-- The read-queue walk of `Connection.__on_read__`: while the queue is
non-empty, pop the head task; if `__consume__` fails, push it back and
stop.  `fuel` bounds the recursion; `__on_read__` supplies the queue
length, which suffices because each successful consume shortens the
queue. -/
def drainReads (cbR : Nat → Bool) : Nat → ConnState → ConnState × List Event
  | 0, s => (s, [])
  | fuel + 1, s =>
    match s.rtasks with
    | [] => (s, [])
    | t :: rest =>
      match consume cbR t.need t.cb { s with rtasks := rest } with
      | some r =>
        ((drainReads cbR fuel r.state).1,
          r.events ++ (drainReads cbR fuel r.state).2)
      | none => (s, [])

/-- The buffer fill and queue walk of `Connection.__on_read__`: append
the bytes the socket delivered to `_rbuf_`, then walk the read queue
(the queue length bounds the walk, since each served task leaves the
queue shorter). -/
def afterFill (cbR : Nat → Bool) (bs : List Nat) (s : ConnState) :
    ConnState × List Event :=
  drainReads cbR s.rtasks.length { s with rbuf := s.rbuf ++ bs }

/-- `Connection.__on_read__`: drain the socket into the buffer
(would-block returns silently, other errors are fatal), walk the read
queue, then treat a peer close as a debug-level fatal close. -/
def onReadEv (cbR : Nat → Bool) (io : ReadIo) (s : ConnState) : OpRes :=
  match io with
  | .wouldBlock => ⟨s, [], false⟩
  | .ioError =>
    ⟨(close cbR true s).state, Event.loggedError :: (close cbR true s).events,
      false⟩
  | .data bs peerClosed =>
    if peerClosed then
      ⟨(close cbR true (afterFill cbR bs s).1).state,
        (afterFill cbR bs s).2 ++ [Event.loggedDebug] ++
          (close cbR true (afterFill cbR bs s).1).events,
        false⟩
    else ⟨(afterFill cbR bs s).1, (afterFill cbR bs s).2, false⟩

/-- The state after the head write task has been fully consumed: pop
it, and stop the writer watcher when no further write is queued. -/
def popWrite (s : ConnState) (rest : List WriteTask) : ConnState :=
  { s with wtasks := rest, writerActive := if rest = [] then false else s.writerActive }

/-- `Connection.__on_write__`: pop the head task and attempt the write;
would-block re-queues it, other errors are fatal; on success the task
is re-queued while bytes remain, and once fully consumed the writer
watcher is stopped if the queue became empty and the optional
completion callback runs.  The empty-queue case cannot occur while the
watcher invariant holds (the Python would raise `IndexError` there);
the model returns the state unchanged. -/
def onWriteEv (cbR : Nat → Bool) (io : WriteIo) (s : ConnState) : OpRes :=
  match s.wtasks with
  | [] => ⟨s, [], false⟩
  | t :: rest =>
    match io with
    | .wouldBlock => ⟨s, [], false⟩
    | .ioError =>
      ⟨(close cbR true { s with wtasks := rest }).state,
        Event.loggedError :: (close cbR true { s with wtasks := rest }).events,
        false⟩
    | .wrote k =>
      if t.buf.drop k = [] then
        match t.cb with
        | some cbId => runCb cbR (Event.ranWriteCb cbId) cbId (popWrite s rest)
        | none => ⟨popWrite s rest, [], false⟩
      else ⟨{ s with wtasks := ⟨t.buf.drop k, t.cb⟩ :: rest }, [], false⟩

/-- State of a fresh connection after `Connection.__setup__`: empty
buffer and queues, reader watcher started, writer idle, socket open. -/
def initConn (onCloseCb : Option Nat) : ConnState :=
  { rbuf := [], rtasks := [], wtasks := [], readerActive := true,
    writerActive := false, socketClosed := false, closing := false,
    onClose := onCloseCb }

/-- One invocation of a public operation or watcher event handler on a
connection.  The `onRead` constructor requires the socket to be open in
the `data` case: a closed socket cannot deliver bytes (`socket.read`
raises on a closed descriptor, which is the `ioError` case). -/
inductive Step (cbR : Nat → Bool) : ConnState → ConnState → Prop
  | read (need cbId : Nat) (s : ConnState) :
      Step cbR s (readOp cbR need cbId s).state
  | write (buf : List Nat) (cbId : Option Nat) (s : ConnState) :
      Step cbR s (writeOp buf cbId s).state
  | onRead (io : ReadIo) (s : ConnState)
      (h : ∀ bs pc, io = ReadIo.data bs pc → s.socketClosed = false) :
      Step cbR s (onReadEv cbR io s).state
  | onWrite (io : WriteIo) (s : ConnState) :
      Step cbR s (onWriteEv cbR io s).state
  | close (notify : Bool) (s : ConnState) :
      Step cbR s (close cbR notify s).state

/-- Connection states reachable from a freshly set-up connection by any
sequence of operations and watcher events. -/
inductive Reachable (cbR : Nat → Bool) : ConnState → Prop
  | init (onCloseCb : Option Nat) : Reachable cbR (initConn onCloseCb)
  | step {s s' : ConnState} :
      Reachable cbR s → Step cbR s s' → Reachable cbR s'

/-- Structural invariant of a connection between operations: the
`_closing_` guard is clear, the writer watcher is active exactly when
write tasks are pending, and a closed connection has been fully torn
down (buffer and queues cleared, watchers stopped). -/
def ConnInv (s : ConnState) : Prop :=
  s.closing = false ∧
  (s.writerActive = true ↔ s.wtasks ≠ []) ∧
  (s.socketClosed = true →
    s.rbuf = [] ∧ s.rtasks = [] ∧ s.wtasks = [] ∧
    s.readerActive = false ∧ s.writerActive = false)

instance (s : ConnState) : Decidable (ConnInv s) := by
  unfold ConnInv; infer_instance

-- ----------------------------------------------------------------------------
-- rpc.py: exceptions, codec façade, server dispatch

/-- Exception kinds relevant to the rpc layer: `RequestError`,
`CriticalError`, `AttributeError` (synthesized on a dispatch miss), and
an ordinary error kind (standing for `ValueError` and its peers). -/
inductive Exc
  | requestError
  | criticalError (msg : String)
  | attributeError (msg : String)
  | valueError (msg : String)
deriving DecidableEq, Repr

/-- A value travelling in a response payload: an ordinary value or an
exception instance (remote failures round-trip as typed values). -/
inductive RpcValue
  | val (n : Nat)
  | exc (e : Exc)
deriving DecidableEq, Repr

/-- What a client call produces for its caller: a returned value or a
raised exception. -/
inductive CallOutcome
  | returns (v : Nat)
  | raises (e : Exc)
deriving DecidableEq, Repr

/-- `Client.__on_request__` round trip.  `_result_` starts as the
`RequestError()` sentinel; the framed request is written and `block()`
runs the inner loop.  If a response payload arrives,
`Client.__on_result__` stores `unpack(buf)` — or, when `unpack` raises,
the raised exception itself — and unblocks.  `response` is `none` when
`block()` returned without `__on_result__` running (connection closed),
`some (.ok v)` when the payload decoded to `v`, and `some (.error e)`
when `unpack` raised `e`.  After `block()`, an `Exception` instance in
`_result_` is raised to the caller and any other value is returned. -/
def clientCall (response : Option (Except Exc RpcValue)) : CallOutcome :=
  let result : RpcValue :=
    match response with
    | none => .exc .requestError
    | some (.ok v) => v
    | some (.error e) => .exc e
  match result with
  | .exc e => .raises e
  | .val v => .returns v

-- ----------------------------------------------------------------------------
-- rpc.py: Overwatch inner-loop bridge

/-- Overwatch-specific state: whether the overwatch watcher on the
outer loop is active, and the depth of the private inner loop. -/
structure OwState where
  owActive : Bool
  innerDepth : Nat
deriving DecidableEq, Repr

/-- The primitive statements of `Overwatch.__block__`, `__unblock__`
and `__stop__`: stop or start the overwatch watcher, enter the inner
loop (`self._loop_.start()`), break it at all depths
(`self._loop_.stop(EVBREAK_ALL)`), or run the base `Connection`
teardown (which does not touch the overwatch fields). -/
inductive OwAct
  | owStop
  | owStart
  | innerEnter
  | innerBreak
  | baseClose
deriving DecidableEq, Repr

/-- Effect of one primitive statement on the overwatch state. -/
def owApply : OwState → OwAct → OwState
  | s, .owStop => { s with owActive := false }
  | s, .owStart => { s with owActive := true }
  | s, .innerEnter => { s with innerDepth := s.innerDepth + 1 }
  | s, .innerBreak => { s with innerDepth := 0 }
  | s, .baseClose => s

/-- The Overwatch operations. -/
inductive OwOp
  | block
  | unblock
  | closeOw
deriving DecidableEq, Repr

/-- Statement sequences of the Overwatch operations, in source order:
`__block__` stops the overwatch watcher then starts the inner loop;
`__unblock__` breaks the inner loop at all depths then restarts the
watcher; `__stop__` breaks the inner loop, stops the watcher, then runs
the base teardown. -/
def owActs : OwOp → List OwAct
  | .block => [.owStop, .innerEnter]
  | .unblock => [.innerBreak, .owStart]
  | .closeOw => [.innerBreak, .owStop, .baseClose]

/-- Run a statement sequence. -/
def owRun (s : OwState) (acts : List OwAct) : OwState := acts.foldl owApply s

/-- All states passed through while running a statement sequence,
including the initial and final states. -/
def owTrace (s : OwState) : List OwAct → List OwState
  | [] => [s]
  | a :: rest => s :: owTrace (owApply s a) rest

/-- All states passed through while running a sequence of Overwatch
operations statement by statement. -/
def owOpsTrace (s : OwState) : List OwOp → List OwState
  | [] => [s]
  | op :: rest => owTrace s (owActs op) ++ owOpsTrace (owRun s (owActs op)) rest

/-- The idle state after `Overwatch.__setup__`: overwatch watcher
started on the outer loop, inner loop not running. -/
def owIdle : OwState := { owActive := true, innerDepth := 0 }

/-- Quiescence: whenever the inner loop is running (the client is
blocked), the outer loop holds no readiness subscription on the client
socket. -/
def owQuietB (s : OwState) : Bool := s.innerDepth = 0 || s.owActive = false

/-- Iterated `close`: one call per entry of `notifies`, threading the
state and concatenating the emitted events. -/
def closeMany (cbR : Nat → Bool) : List Bool → ConnState → ConnState × List Event
  | [], s => (s, [])
  | n :: rest, s =>
    ((closeMany cbR rest (close cbR n s).state).1,
      (close cbR n s).events ++ (closeMany cbR rest (close cbR n s).state).2)

/-- Number of `on_close` hook invocations recorded in an event list. -/
def countOnClose (evs : List Event) : Nat :=
  (evs.filter fun e => match e with | .ranOnClose _ => true | _ => false).length

/-- The read-callback invocations recorded in an event list, in order. -/
def readCbIds (evs : List Event) : List Nat :=
  evs.filterMap fun e => match e with | .ranCb i _ => some i | _ => none

/-- The write-completion invocations recorded in an event list, in
order. -/
def writeCbIds (evs : List Event) : List Nat :=
  evs.filterMap fun e => match e with | .ranWriteCb i => some i | _ => none

-- ----------------------------------------------------------------------------
-- Basic lemmas about close, __run__ and __consume__

theorem close_state (cbR : Nat → Bool) (notify : Bool) (s : ConnState) :
    (close cbR notify s).state =
      if s.socketClosed = false ∧ s.closing = false then tornState else s := by
  by_cases h : s.socketClosed = false ∧ s.closing = false
  · simp only [close, if_pos h]
    cases s.onClose with
    | none => rfl
    | some cb => cases notify <;> cases hc : cbR cb <;> simp [hc]
  · simp only [close, if_neg h]

theorem close_state_noop (cbR : Nat → Bool) (notify : Bool) (s : ConnState)
    (h : s.socketClosed = true) : close cbR notify s = ⟨s, [], false⟩ := by
  simp [close, h]

theorem close_state_torn (cbR : Nat → Bool) (notify : Bool) (s : ConnState)
    (h1 : s.socketClosed = false) (h2 : s.closing = false) :
    (close cbR notify s).state = tornState := by
  rw [close_state]; simp [h1, h2]

theorem close_raised (cbR : Nat → Bool) (notify : Bool) (s : ConnState) :
    (close cbR notify s).raised = false := by
  unfold close
  by_cases h : s.socketClosed = false ∧ s.closing = false
  · simp only [if_pos h]
    cases s.onClose with
    | none => rfl
    | some cb => cases notify <;> cases hc : cbR cb <;> simp [hc]
  · simp only [if_neg h]

theorem close_readCbIds (cbR : Nat → Bool) (notify : Bool) (s : ConnState) :
    readCbIds (close cbR notify s).events = [] := by
  unfold close
  by_cases h : s.socketClosed = false ∧ s.closing = false
  · simp only [if_pos h]
    cases s.onClose with
    | none => rfl
    | some cb => cases notify <;> cases hc : cbR cb <;> simp [hc, readCbIds]
  · simp only [if_neg h]; rfl

theorem close_writeCbIds (cbR : Nat → Bool) (notify : Bool) (s : ConnState) :
    writeCbIds (close cbR notify s).events = [] := by
  unfold close
  by_cases h : s.socketClosed = false ∧ s.closing = false
  · simp only [if_pos h]
    cases s.onClose with
    | none => rfl
    | some cb => cases notify <;> cases hc : cbR cb <;> simp [hc, writeCbIds]
  · simp only [if_neg h]; rfl

theorem runCb_state_cases (cbR : Nat → Bool) (ev : Event) (cbId : Nat)
    (s : ConnState) :
    (runCb cbR ev cbId s).state = s ∨ (runCb cbR ev cbId s).state = tornState := by
  unfold runCb
  by_cases h : cbR cbId = true
  · simp only [h, if_true]
    rw [close_state]
    by_cases hg : s.socketClosed = false ∧ s.closing = false
    · right; simp [hg]
    · left; simp [hg]
  · simp at h; simp [h]

theorem runCb_events (cbR : Nat → Bool) (ev : Event) (cbId : Nat)
    (s : ConnState) :
    (runCb cbR ev cbId s).events = ev :: (runCb cbR ev cbId s).events.tail := by
  unfold runCb
  by_cases h : cbR cbId = true
  · simp [h]
  · simp at h; simp [h]

theorem runCb_raised (cbR : Nat → Bool) (ev : Event) (cbId : Nat)
    (s : ConnState) : (runCb cbR ev cbId s).raised = false := by
  unfold runCb
  by_cases h : cbR cbId = true
  · simp [h]
  · simp at h; simp [h]

theorem runCb_readCbIds (cbR : Nat → Bool) (ev : Event) (cbId : Nat)
    (s : ConnState) :
    readCbIds (runCb cbR ev cbId s).events = readCbIds [ev] := by
  unfold runCb
  by_cases h : cbR cbId = true
  · simp only [h, if_true]
    have hc := close_readCbIds cbR true s
    unfold readCbIds at hc ⊢
    cases ev <;> simp [List.filterMap_cons, hc]
  · simp at h; simp [h]

theorem runCb_writeCbIds (cbR : Nat → Bool) (ev : Event) (cbId : Nat)
    (s : ConnState) :
    writeCbIds (runCb cbR ev cbId s).events = writeCbIds [ev] := by
  unfold runCb
  by_cases h : cbR cbId = true
  · simp only [h, if_true]
    have hc := close_writeCbIds cbR true s
    unfold writeCbIds at hc ⊢
    cases ev <;> simp [List.filterMap_cons, hc]
  · simp at h; simp [h]

-- ----------------------------------------------------------------------------
-- Preservation of the structural invariant

theorem inv_torn : ConnInv tornState := by decide

theorem inv_init (onCloseCb : Option Nat) : ConnInv (initConn onCloseCb) := by
  refine ⟨rfl, ?_, ?_⟩ <;> simp [initConn]

theorem inv_close (cbR : Nat → Bool) (notify : Bool) (s : ConnState)
    (h : ConnInv s) : ConnInv (close cbR notify s).state := by
  rw [close_state]
  by_cases hg : s.socketClosed = false ∧ s.closing = false
  · rw [if_pos hg]; exact inv_torn
  · rw [if_neg hg]; exact h

theorem inv_runCb (cbR : Nat → Bool) (ev : Event) (cbId : Nat) (s : ConnState)
    (h : ConnInv s) : ConnInv (runCb cbR ev cbId s).state := by
  rcases runCb_state_cases cbR ev cbId s with hc | hc <;> rw [hc]
  · exact h
  · exact inv_torn

theorem inv_rbuf_drop (s : ConnState) (h : ConnInv s) (n : Nat) :
    ConnInv { s with rbuf := s.rbuf.drop n } := by
  obtain ⟨h1, h2, h3⟩ := h
  refine ⟨h1, h2, ?_⟩
  intro hc
  obtain ⟨hb, hr, hw, hra, hwa⟩ := h3 hc
  simp [hb, hr, hw, hra, hwa]

theorem inv_rtasks_rest (s : ConnState) (t : ReadTask) (rest : List ReadTask)
    (h : ConnInv s) (ht : s.rtasks = t :: rest) :
    ConnInv { s with rtasks := rest } := by
  obtain ⟨h1, h2, h3⟩ := h
  refine ⟨h1, h2, ?_⟩
  intro hc
  exact absurd (h3 hc).2.1 (by simp [ht])

theorem inv_consume (cbR : Nat → Bool) (need cbId : Nat) (s : ConnState)
    (r : OpRes) (h : ConnInv s) (hc : consume cbR need cbId s = some r) :
    ConnInv r.state := by
  unfold consume at hc
  by_cases hlen : need ≤ s.rbuf.length
  · rw [if_pos hlen] at hc
    obtain rfl := Option.some_injective _ hc
    exact inv_runCb _ _ _ _ (inv_rbuf_drop s h need)
  · rw [if_neg hlen] at hc; exact absurd hc (by simp)

theorem inv_rtasks_append (s : ConnState) (t : ReadTask) (h : ConnInv s)
    (hopen : s.socketClosed = false) :
    ConnInv { s with rtasks := s.rtasks ++ [t] } := by
  obtain ⟨h1, h2, _⟩ := h
  exact ⟨h1, h2, fun hcc => absurd hcc (by simp [hopen])⟩

theorem inv_wtasks_append (s : ConnState) (t : WriteTask) (h : ConnInv s)
    (hopen : s.socketClosed = false) :
    ConnInv { s with wtasks := s.wtasks ++ [t], writerActive := true } := by
  obtain ⟨h1, _, _⟩ := h
  exact ⟨h1, by simp, fun hcc => absurd hcc (by simp [hopen])⟩

theorem inv_drain (cbR : Nat → Bool) (fuel : Nat) :
    ∀ s : ConnState, ConnInv s → ConnInv (drainReads cbR fuel s).1 := by
  induction fuel with
  | zero => intro s h; exact h
  | succ fuel ih =>
    intro s h
    unfold drainReads
    split
    · exact h
    rename_i t rest ht
    split
    · rename_i r hc
      exact ih r.state (inv_consume cbR t.need t.cb _ r
        (inv_rtasks_rest s t rest h ht) hc)
    · exact h

theorem inv_readOp (cbR : Nat → Bool) (need cbId : Nat) (s : ConnState)
    (h : ConnInv s) : ConnInv (readOp cbR need cbId s).state := by
  unfold readOp
  by_cases h0 : need = 0
  · rw [if_pos h0]; exact h
  rw [if_neg h0]
  by_cases hq : s.rtasks = []
  · rw [if_pos hq]
    cases hc : consume cbR need cbId s with
    | some r => exact inv_consume cbR need cbId s r h hc
    | none =>
      by_cases hcl : s.socketClosed = true
      · rw [if_pos hcl]; exact h
      · rw [if_neg hcl]
        exact inv_rtasks_append s _ h (by simpa using hcl)
  · rw [if_neg hq]
    by_cases hcl : s.socketClosed = true
    · rw [if_pos hcl]; exact h
    · rw [if_neg hcl]
      exact inv_rtasks_append s _ h (by simpa using hcl)

theorem inv_writeOp (buf : List Nat) (cbId : Option Nat) (s : ConnState)
    (h : ConnInv s) : ConnInv (writeOp buf cbId s).state := by
  unfold writeOp
  by_cases hb : buf = []
  · rw [if_pos hb]; exact h
  rw [if_neg hb]
  by_cases hcl : s.socketClosed = true
  · rw [if_pos hcl]; exact h
  · rw [if_neg hcl]
    exact inv_wtasks_append s _ h (by simpa using hcl)

theorem inv_afterFill (cbR : Nat → Bool) (bs : List Nat) (s : ConnState)
    (h : ConnInv s) (hopen : s.socketClosed = false) :
    ConnInv (afterFill cbR bs s).1 := by
  have hs1 : ConnInv { s with rbuf := s.rbuf ++ bs } := by
    obtain ⟨h1, h2, _⟩ := h
    exact ⟨h1, h2, fun hcc => absurd hcc (by simp [hopen])⟩
  exact inv_drain cbR s.rtasks.length _ hs1

theorem inv_onRead (cbR : Nat → Bool) (io : ReadIo) (s : ConnState)
    (h : ConnInv s)
    (hop : ∀ bs pc, io = ReadIo.data bs pc → s.socketClosed = false) :
    ConnInv (onReadEv cbR io s).state := by
  cases io with
  | wouldBlock => exact h
  | ioError => exact inv_close cbR true s h
  | data bs pc =>
    have hopen : s.socketClosed = false := hop bs pc rfl
    have hd := inv_afterFill cbR bs s h hopen
    unfold onReadEv
    cases pc with
    | true => exact inv_close cbR true _ hd
    | false => exact hd

theorem inv_popWrite (s : ConnState) (t : WriteTask) (rest : List WriteTask)
    (h : ConnInv s) (hw : s.wtasks = t :: rest)
    (hopen : s.socketClosed = false) : ConnInv (popWrite s rest) := by
  obtain ⟨h1, h2, _⟩ := h
  refine ⟨h1, ?_, fun hcc => absurd hcc (by simp [popWrite, hopen])⟩
  by_cases hr : rest = []
  · simp [popWrite, hr]
  · have hwa : s.writerActive = true := h2.2 (by simp [hw])
    simp [popWrite, hr, hwa]

theorem inv_onWrite (cbR : Nat → Bool) (io : WriteIo) (s : ConnState)
    (h : ConnInv s) : ConnInv (onWriteEv cbR io s).state := by
  unfold onWriteEv
  split
  · exact h
  case _ t rest hw =>
    have hopen : s.socketClosed = false := by
      by_cases hcl : s.socketClosed = true
      · exact absurd (h.2.2 hcl).2.2.1 (by simp [hw])
      · simpa using hcl
    split
    · exact h
    · have hg : (({ s with wtasks := rest } : ConnState).socketClosed = false ∧
          ({ s with wtasks := rest } : ConnState).closing = false) := ⟨hopen, h.1⟩
      rw [close_state, if_pos hg]
      exact inv_torn
    · split
      · have hs1 := inv_popWrite s t rest h hw hopen
        split
        · exact inv_runCb cbR _ _ _ hs1
        · exact hs1
      · obtain ⟨h1, h2, _⟩ := h
        refine ⟨h1, ?_, fun hcc => absurd hcc (by simp [hopen])⟩
        have hwa : s.writerActive = true := h2.2 (by simp [hw])
        simp [hwa]

theorem inv_step (cbR : Nat → Bool) (s s' : ConnState) (hstep : Step cbR s s')
    (h : ConnInv s) : ConnInv s' := by
  cases hstep with
  | read need cbId s => exact inv_readOp cbR need cbId s h
  | write buf cbId s => exact inv_writeOp buf cbId s h
  | onRead io s hop => exact inv_onRead cbR io s h hop
  | onWrite io s => exact inv_onWrite cbR io s h
  | close notify s => exact inv_close cbR notify s h

theorem inv_reachable (cbR : Nat → Bool) (s : ConnState)
    (h : Reachable cbR s) : ConnInv s := by
  induction h with
  | init onCloseCb => exact inv_init onCloseCb
  | step _ hstep ih => exact inv_step cbR _ _ hstep ih

-- ----------------------------------------------------------------------------
-- Further helper lemmas for the claims

theorem closeMany_closed (cbR : Nat → Bool) (l : List Bool) :
    ∀ s : ConnState, s.socketClosed = true → closeMany cbR l s = (s, []) := by
  induction l with
  | nil => intro s _; rfl
  | cons b rest ih =>
    intro s h
    unfold closeMany
    rw [close_state_noop cbR b s h]
    rw [ih s h]
    rfl

theorem close_events_spec (cbR : Nat → Bool) (b : Bool) (s : ConnState)
    (hcl : s.socketClosed = false) (hcg : s.closing = false) :
    (close cbR b s).events =
      match s.onClose, b with
      | some cb, true =>
        if cbR cb then [Event.ranOnClose cb, Event.loggedError]
        else [Event.ranOnClose cb]
      | _, _ => [] := by
  unfold close
  rw [if_pos ⟨hcl, hcg⟩]
  cases s.onClose with
  | none => cases b <;> rfl
  | some cb =>
    cases b with
    | false => rfl
    | true => cases hcR : cbR cb <;> simp [hcR]

theorem consume_eq (cbR : Nat → Bool) (need cbId : Nat) (s : ConnState)
    (r : OpRes) (hc : consume cbR need cbId s = some r) :
    r = runCb cbR (Event.ranCb cbId (s.rbuf.take need)) cbId
        { s with rbuf := s.rbuf.drop need } ∧
      need ≤ s.rbuf.length := by
  unfold consume at hc
  by_cases hlen : need ≤ s.rbuf.length
  · rw [if_pos hlen] at hc
    exact ⟨(Option.some_injective _ hc).symm, hlen⟩
  · rw [if_neg hlen] at hc; exact absurd hc (by simp)

theorem readOp_serve_eq (cbR : Nat → Bool) (need cbId : Nat) (s : ConnState)
    (h0 : need ≠ 0) (hq : s.rtasks = []) (hlen : need ≤ s.rbuf.length) :
    readOp cbR need cbId s =
      runCb cbR (Event.ranCb cbId (s.rbuf.take need)) cbId
        { s with rbuf := s.rbuf.drop need } := by
  have hc : consume cbR need cbId s =
      some (runCb cbR (Event.ranCb cbId (s.rbuf.take need)) cbId
        { s with rbuf := s.rbuf.drop need }) := by
    unfold consume
    rw [if_pos hlen]
  unfold readOp
  rw [if_neg h0, if_pos hq, hc]

theorem runCb_events_head (cbR : Nat → Bool) (ev : Event) (cbId : Nat)
    (s : ConnState) : (runCb cbR ev cbId s).events.head? = some ev := by
  unfold runCb
  by_cases h : cbR cbId = true
  · simp [h]
  · simp at h; simp [h]

theorem drain_readCbIds (cbR : Nat → Bool) (fuel : Nat) :
    ∀ s : ConnState, ∃ k, readCbIds (drainReads cbR fuel s).2 =
      (s.rtasks.map ReadTask.cb).take k := by
  induction fuel with
  | zero => intro s; exact ⟨0, by simp [drainReads, readCbIds]⟩
  | succ fuel ih =>
    intro s
    unfold drainReads
    split
    · rename_i ht
      exact ⟨0, by simp [readCbIds]⟩
    rename_i t rest ht
    split
    · rename_i r hc
      obtain ⟨hr, _⟩ := consume_eq cbR t.need t.cb _ r hc
      have hids : readCbIds r.events = [t.cb] := by
        rw [hr]
        rw [runCb_readCbIds]
        rfl
      obtain ⟨k, hk⟩ := ih r.state
      have hstate := runCb_state_cases cbR
        (Event.ranCb t.cb (({ s with rtasks := rest } : ConnState).rbuf.take t.need))
        t.cb { ({ s with rtasks := rest } : ConnState) with
          rbuf := ({ s with rtasks := rest } : ConnState).rbuf.drop t.need }
      rw [← hr] at hstate
      rcases hstate with hst | hst
      · refine ⟨k + 1, ?_⟩
        rw [readCbIds, List.filterMap_append, ← readCbIds, ← readCbIds, hids, hk,
          hst, ht]
        simp
      · refine ⟨1, ?_⟩
        rw [readCbIds, List.filterMap_append, ← readCbIds, ← readCbIds, hids, hk,
          hst, ht]
        simp [tornState]
    · exact ⟨0, by simp [readCbIds]⟩

-- ----------------------------------------------------------------------------
-- Concrete states used by the witnesses

/-- A connection with two buffered bytes and an empty read queue. -/
def servState : ConnState :=
  { rbuf := [9, 8], rtasks := [], wtasks := [], readerActive := true,
    writerActive := false, socketClosed := false, closing := false,
    onClose := none }

/-- A connection with one queued read task. -/
def qState : ConnState :=
  { rbuf := [], rtasks := [⟨2, 3⟩], wtasks := [], readerActive := true,
    writerActive := false, socketClosed := false, closing := false,
    onClose := none }

/-- A connection with one buffered byte. -/
def oneByteState : ConnState :=
  { rbuf := [7], rtasks := [], wtasks := [], readerActive := true,
    writerActive := false, socketClosed := false, closing := false,
    onClose := none }

-- ----------------------------------------------------------------------------
-- Claim theorems

/-- C3: for every connection and every sequence of `k ≥ 1` calls to
`close(notify)` with any mix of notify values, the teardown is
performed exactly once — calls after the first are no-ops once `closed`
is true — and the `on_close` hook is invoked at most once, and only if
notify was true on the call that performed the teardown (the first
call, starting from an open connection). -/
theorem close_teardown_once (cbR : Nat → Bool) (b : Bool) (rest : List Bool)
    (s : ConnState) (hcl : s.socketClosed = false) (hcg : s.closing = false) :
    closeMany cbR (b :: rest) s =
      ((close cbR b s).state, (close cbR b s).events) ∧
    (close cbR b s).state = tornState ∧
    countOnClose (close cbR b s).events ≤ 1 ∧
    (countOnClose (close cbR b s).events = 1 ↔ b = true ∧ s.onClose ≠ none) := by
  have hts : (close cbR b s).state = tornState := close_state_torn cbR b s hcl hcg
  have hev := close_events_spec cbR b s hcl hcg
  refine ⟨?_, hts, ?_, ?_⟩
  · unfold closeMany
    rw [hts, closeMany_closed cbR rest tornState rfl]
    simp
  · rw [hev]
    cases s.onClose with
    | none => cases b <;> simp [countOnClose]
    | some cb =>
      cases b with
      | false => simp [countOnClose]
      | true => cases hcR : cbR cb <;> simp [hcR, countOnClose]
  · rw [hev]
    cases s.onClose with
    | none => cases b <;> simp [countOnClose]
    | some cb =>
      cases b with
      | false => simp [countOnClose]
      | true => cases hcR : cbR cb <;> simp [hcR, countOnClose]

theorem close_teardown_once_witness :
    closeMany (fun _ => false) [true, false, true] (initConn (some 5)) =
      ((close (fun _ => false) true (initConn (some 5))).state,
        (close (fun _ => false) true (initConn (some 5))).events) ∧
    (close (fun _ => false) true (initConn (some 5))).state = tornState ∧
    countOnClose (close (fun _ => false) true (initConn (some 5))).events ≤ 1 ∧
    (countOnClose (close (fun _ => false) true (initConn (some 5))).events = 1 ↔
      true = true ∧ (initConn (some 5)).onClose ≠ none) :=
  close_teardown_once (fun _ => false) true [false, true] (initConn (some 5))
    rfl rfl

/-- C5: for every reachable connection state — i.e. after every public
operation (read, write, close) and every watcher event handler
completes — the writer watcher is active if and only if the write task
queue is non-empty. -/
theorem writer_active_iff_pending (cbR : Nat → Bool) (s : ConnState)
    (h : Reachable cbR s) : s.writerActive = true ↔ s.wtasks ≠ [] :=
  (inv_reachable cbR s h).2.1

theorem writer_active_iff_pending_witness :
    (writeOp [1, 2] (some 7) (initConn none)).state.writerActive = true ↔
      (writeOp [1, 2] (some 7) (initConn none)).state.wtasks ≠ [] :=
  writer_active_iff_pending (fun _ => false) _
    (Reachable.step (Reachable.init none)
      (Step.write [1, 2] (some 7) (initConn none)))

/-- C10: on every reachable closed connection, `write` of a non-empty
buffer raises `ConnectionError` leaving the write queue and writer
watcher unchanged, and `read` of `n > 0` bytes raises `ConnectionError`
leaving the read queue and read buffer unchanged — neither operation
enqueues a task or invokes a callback when it raises (the whole state
is returned unmodified and no events are emitted). -/
theorem closed_connection_atomic_failure (cbR : Nat → Bool) (s : ConnState)
    (buf : List Nat) (wcb : Option Nat) (need ncb : Nat)
    (hre : Reachable cbR s) (hcl : s.socketClosed = true)
    (hbuf : buf ≠ []) (hn : need ≠ 0) :
    writeOp buf wcb s = ⟨s, [], true⟩ ∧ readOp cbR need ncb s = ⟨s, [], true⟩ := by
  obtain ⟨h1, h2, h3⟩ := inv_reachable cbR s hre
  obtain ⟨hb, hr, hw, hra, hwa⟩ := h3 hcl
  constructor
  · unfold writeOp
    rw [if_neg hbuf, if_pos hcl]
  · have hlen : ¬ need ≤ s.rbuf.length := by simpa [hb] using hn
    have hcn : consume cbR need ncb s = none := by
      unfold consume; rw [if_neg hlen]
    unfold readOp
    rw [if_neg hn, if_pos hr, hcn, if_pos hcl]

theorem closed_connection_atomic_failure_witness :
    writeOp [1] none (close (fun _ => false) true (initConn none)).state =
      ⟨(close (fun _ => false) true (initConn none)).state, [], true⟩ ∧
    readOp (fun _ => false) 1 0
        (close (fun _ => false) true (initConn none)).state =
      ⟨(close (fun _ => false) true (initConn none)).state, [], true⟩ :=
  closed_connection_atomic_failure (fun _ => false) _ [1] none 1 0
    (Reachable.step (Reachable.init none) (Step.close true (initConn none)))
    (by decide) (by decide) (by decide)

/-- C4: for every call `read(n, cb, *extra)`: if `n = 0` the call is a
no-op (no callback, no task, no error even if closed); if the read
queue is empty and the buffer holds at least `n` bytes, the first `n`
bytes are split off and `cb` is invoked with them before `read`
returns; otherwise, if the connection is closed the call fails with a
`ConnectionError`, else the task is appended to the read queue. -/
theorem read_contract (cbR : Nat → Bool) (need cbId : Nat) (s : ConnState) :
    (need = 0 → readOp cbR need cbId s = ⟨s, [], false⟩) ∧
    (need ≠ 0 → s.rtasks = [] → need ≤ s.rbuf.length →
      readOp cbR need cbId s =
        runCb cbR (Event.ranCb cbId (s.rbuf.take need)) cbId
          { s with rbuf := s.rbuf.drop need } ∧
      (readOp cbR need cbId s).events.head? =
        some (Event.ranCb cbId (s.rbuf.take need)) ∧
      (readOp cbR need cbId s).raised = false) ∧
    (need ≠ 0 → (s.rtasks ≠ [] ∨ s.rbuf.length < need) → s.socketClosed = true →
      readOp cbR need cbId s = ⟨s, [], true⟩) ∧
    (need ≠ 0 → (s.rtasks ≠ [] ∨ s.rbuf.length < need) → s.socketClosed = false →
      readOp cbR need cbId s =
        ⟨{ s with rtasks := s.rtasks ++ [⟨need, cbId⟩] }, [], false⟩) := by
  refine ⟨?_, ?_, ?_, ?_⟩
  · intro h0; unfold readOp; rw [if_pos h0]
  · intro h0 hq hlen
    have hEq := readOp_serve_eq cbR need cbId s h0 hq hlen
    refine ⟨hEq, ?_, ?_⟩
    · rw [hEq, runCb_events_head]
    · rw [hEq, runCb_raised]
  · intro h0 hd hcl
    unfold readOp
    rw [if_neg h0]
    by_cases hq : s.rtasks = []
    · rw [if_pos hq]
      have hlen : ¬ need ≤ s.rbuf.length := by
        rcases hd with hd | hd
        · exact absurd hq hd
        · exact Nat.not_le.mpr hd
      have hcn : consume cbR need cbId s = none := by
        unfold consume; rw [if_neg hlen]
      rw [hcn, if_pos hcl]
    · rw [if_neg hq, if_pos hcl]
  · intro h0 hd hcl
    unfold readOp
    rw [if_neg h0]
    have hcl' : ¬ s.socketClosed = true := by simp [hcl]
    by_cases hq : s.rtasks = []
    · rw [if_pos hq]
      have hlen : ¬ need ≤ s.rbuf.length := by
        rcases hd with hd | hd
        · exact absurd hq hd
        · exact Nat.not_le.mpr hd
      have hcn : consume cbR need cbId s = none := by
        unfold consume; rw [if_neg hlen]
      rw [hcn, if_neg hcl']
    · rw [if_neg hq, if_neg hcl']

theorem read_contract_witness :
    readOp (fun _ => true) 0 5 (initConn none) = ⟨initConn none, [], false⟩ ∧
    readOp (fun _ => false) 1 6 servState =
      runCb (fun _ => false) (Event.ranCb 6 (servState.rbuf.take 1)) 6
        { servState with rbuf := servState.rbuf.drop 1 } ∧
    readOp (fun _ => false) 1 0 tornState = ⟨tornState, [], true⟩ ∧
    readOp (fun _ => false) 1 4 qState =
      ⟨{ qState with rtasks := qState.rtasks ++ [⟨1, 4⟩] }, [], false⟩ :=
  ⟨(read_contract (fun _ => true) 0 5 (initConn none)).1 rfl,
    ((read_contract (fun _ => false) 1 6 servState).2.1 (by decide) rfl
      (by decide)).1,
    (read_contract (fun _ => false) 1 0 tornState).2.2.1 (by decide)
      (Or.inr (by decide)) rfl,
    (read_contract (fun _ => false) 1 4 qState).2.2.2 (by decide)
      (Or.inl (by decide)) rfl⟩

/-- C9: for every `read(n, cb)` served synchronously (queue empty,
buffer holds `n` bytes) whose callback raises, `read` still returns
normally to its caller (no error is raised out of it): the exception is
trapped by `Connection.__run__`, logged at error level, and the
connection is closed. -/
theorem callback_error_trapped_in_read (cbR : Nat → Bool) (need cbId : Nat)
    (s : ConnState) (h0 : need ≠ 0) (hq : s.rtasks = [])
    (hlen : need ≤ s.rbuf.length) (hraise : cbR cbId = true)
    (hcl : s.socketClosed = false) (hcg : s.closing = false) :
    (readOp cbR need cbId s).raised = false ∧
    (readOp cbR need cbId s).state = tornState ∧
    (readOp cbR need cbId s).events.head? =
      some (Event.ranCb cbId (s.rbuf.take need)) ∧
    Event.loggedError ∈ (readOp cbR need cbId s).events := by
  have hEq := readOp_serve_eq cbR need cbId s h0 hq hlen
  rw [hEq]
  unfold runCb
  rw [if_pos hraise]
  refine ⟨rfl, ?_, rfl, ?_⟩
  · exact close_state_torn cbR true _ hcl hcg
  · simp

theorem callback_error_trapped_in_read_witness :
    (readOp (fun _ => true) 1 0 oneByteState).raised = false ∧
    (readOp (fun _ => true) 1 0 oneByteState).state = tornState ∧
    (readOp (fun _ => true) 1 0 oneByteState).events.head? =
      some (Event.ranCb 0 (oneByteState.rbuf.take 1)) ∧
    Event.loggedError ∈ (readOp (fun _ => true) 1 0 oneByteState).events :=
  callback_error_trapped_in_read (fun _ => true) 1 0 oneByteState (by decide)
    rfl (by decide) rfl rfl rfl

theorem readCbIds_append (l1 l2 : List Event) :
    readCbIds (l1 ++ l2) = readCbIds l1 ++ readCbIds l2 := by
  unfold readCbIds; exact List.filterMap_append l1 l2 _

theorem afterFill_readCbIds (cbR : Nat → Bool) (bs : List Nat) (s : ConnState) :
    ∃ k, readCbIds (afterFill cbR bs s).2 = (s.rtasks.map ReadTask.cb).take k := by
  obtain ⟨k, hk⟩ :=
    drain_readCbIds cbR s.rtasks.length { s with rbuf := s.rbuf ++ bs }
  exact ⟨k, by simpa [afterFill] using hk⟩

/-- C6: per connection, completions are FIFO.  In every single
`__on_read__` event the read callbacks invoked form a prefix, in order,
of the pending read queue; in every single `__on_write__` event at most
the completion callback of the head task fires; and `read`/`write` never
reorder their queues — a task is only ever appended at the tail.
Together these give: if `read(n1, cb1)` is enqueued before
`read(n2, cb2)`, `cb1` completes before `cb2` starts, and write
completion callbacks fire in enqueue order. -/
theorem completion_fifo_order (cbR : Nat → Bool) (io : ReadIo) (wio : WriteIo)
    (s : ConnState) (need cbId : Nat) (buf : List Nat) (wcb : Option Nat) :
    (∃ k, readCbIds (onReadEv cbR io s).events =
      (s.rtasks.map ReadTask.cb).take k) ∧
    (writeCbIds (onWriteEv cbR wio s).events = [] ∨
      ∃ c, s.wtasks.head?.map WriteTask.cb = some (some c) ∧
        writeCbIds (onWriteEv cbR wio s).events = [c]) ∧
    ((readOp cbR need cbId s).state.rtasks = s.rtasks ∨
      (readOp cbR need cbId s).state.rtasks = s.rtasks ++ [⟨need, cbId⟩]) ∧
    ((writeOp buf wcb s).state.wtasks = s.wtasks ∨
      (writeOp buf wcb s).state.wtasks = s.wtasks ++ [⟨buf, wcb⟩]) := by
  refine ⟨?_, ?_, ?_, ?_⟩
  · cases io with
    | wouldBlock => exact ⟨0, by simp [onReadEv, readCbIds]⟩
    | ioError =>
      refine ⟨0, ?_⟩
      show readCbIds (Event.loggedError :: (close cbR true s).events) =
        (s.rtasks.map ReadTask.cb).take 0
      have hcl := close_readCbIds cbR true s
      unfold readCbIds at hcl ⊢
      simp [List.filterMap_cons, hcl]
    | data bs pc =>
      obtain ⟨k, hk⟩ := afterFill_readCbIds cbR bs s
      cases pc with
      | true =>
        refine ⟨k, ?_⟩
        show readCbIds ((afterFill cbR bs s).2 ++ [Event.loggedDebug] ++
          (close cbR true (afterFill cbR bs s).1).events) =
          (s.rtasks.map ReadTask.cb).take k
        rw [readCbIds_append, readCbIds_append, hk,
          close_readCbIds cbR true (afterFill cbR bs s).1]
        have hdbg : readCbIds [Event.loggedDebug] = [] := rfl
        rw [hdbg]
        simp
      | false => exact ⟨k, hk⟩
  · unfold onWriteEv
    split
    · exact Or.inl rfl
    rename_i t rest hw
    split
    · exact Or.inl rfl
    · exact Or.inl (close_writeCbIds cbR true { s with wtasks := rest })
    · split
      · split
        · rename_i cbId2 heq
          refine Or.inr ⟨cbId2, ?_, ?_⟩
          · rw [hw]; simp [heq]
          · rw [runCb_writeCbIds]; rfl
        · exact Or.inl rfl
      · exact Or.inl rfl
  · by_cases h0 : need = 0
    · left
      unfold readOp; rw [if_pos h0]
    by_cases hq : s.rtasks = []
    · by_cases hlen : need ≤ s.rbuf.length
      · rw [readOp_serve_eq cbR need cbId s h0 hq hlen]
        rcases runCb_state_cases cbR (Event.ranCb cbId (s.rbuf.take need)) cbId
          { s with rbuf := s.rbuf.drop need } with hst | hst
        · left; rw [hst]
        · left; rw [hst, hq]; rfl
      · have hcn : consume cbR need cbId s = none := by
          unfold consume; rw [if_neg hlen]
        unfold readOp
        rw [if_neg h0, if_pos hq, hcn]
        by_cases hcl : s.socketClosed = true
        · left; rw [if_pos hcl]
        · right; rw [if_neg hcl]
    · unfold readOp
      rw [if_neg h0, if_neg hq]
      by_cases hcl : s.socketClosed = true
      · left; rw [if_pos hcl]
      · right; rw [if_neg hcl]
  · unfold writeOp
    by_cases hb : buf = []
    · left; rw [if_pos hb]
    by_cases hcl : s.socketClosed = true
    · left; rw [if_neg hb, if_pos hcl]
    · right; rw [if_neg hb, if_neg hcl]

theorem owOps_all_quiet (ops : List OwOp) :
    ∀ s : OwState, owQuietB s = true →
      (owOpsTrace s ops).all owQuietB = true := by
  induction ops with
  | nil => intro s h; simp [owOpsTrace, h]
  | cons op rest ih =>
    intro s h
    simp only [owOpsTrace, List.all_append, Bool.and_eq_true]
    refine ⟨?_, ih _ ?_⟩
    · cases op <;> simp_all [owActs, owTrace, owApply, owQuietB]
    · cases op <;> simp [owActs, owRun, owApply, owQuietB]

/-- C7: `block()` stops the overwatch watcher before starting the inner
loop (visible in the statement trace) and returns with the inner loop
entered; `unblock()` breaks the inner loop at all depths and then
restarts the watcher; `close` breaks the inner loop and stops the
watcher; consequently, along any statement-level trace of Overwatch
operations from the idle state, whenever the inner loop is running the
outer loop holds no readiness subscription on the client socket. -/
theorem overwatch_block_quiescence (ops : List OwOp) (s : OwState) :
    (owOpsTrace owIdle ops).all owQuietB = true ∧
    owTrace s (owActs .block) =
      [s, { s with owActive := false },
        { owActive := false, innerDepth := s.innerDepth + 1 }] ∧
    owRun s (owActs .unblock) = { owActive := true, innerDepth := 0 } ∧
    owRun s (owActs .closeOw) = { owActive := false, innerDepth := 0 } :=
  ⟨owOps_all_quiet ops owIdle (by decide), rfl, rfl, rfl⟩

/-- C8 counterexample: when the response payload cannot be decoded and
`unpack` raises an ordinary error, the client call surfaces that very
error, which is not the `RequestError` kind — refuting the claim that a
client-side decoding failure is reported as `RequestError`. -/
theorem client_decode_requesterror_cex :
    clientCall (some (Except.error (Exc.valueError "boom"))) =
      CallOutcome.raises (Exc.valueError "boom") ∧
    CallOutcome.raises (Exc.valueError "boom") ≠
      CallOutcome.raises Exc.requestError := by
  exact ⟨rfl, by decide⟩

/-- C8 amended: for every client call whose response payload arrives
but cannot be decoded, the call raises the exception that `unpack`
raised, as-is; the `RequestError` sentinel is surfaced only when
`block()` returns without any response having been delivered. -/
theorem client_decode_surfaces_unpack_error (e : Exc) :
    clientCall (some (Except.error e)) = CallOutcome.raises e ∧
    clientCall none = CallOutcome.raises Exc.requestError :=
  ⟨rfl, rfl⟩

end Ippc
